import Mathlib

/-!
Shallow embedding of `src/main.rs` of the hexagon_screensaver repository.

Conventions of the embedding:
* Rust `f32` values are modelled as real numbers (`ℝ`) in the animation and
  geometry code, and as rational numbers (`ℚ`) in the grid-layout and
  configuration code, where every operation the program performs is exact on
  rationals and this keeps the definitions executable.
* Calls into the random number generator (`rand::gen_range`) are modelled by
  passing the drawn values in as explicit arguments, following the design
  note of the specification that ambient randomness is modelled as an
  explicit input.
* Side-effecting drawing calls (`draw_triangle` etc.) are modelled by the
  data the program passes to them; `Shape::draw` returns an `Option DrawCmd`,
  `none` standing for the early `return` that emits nothing.
* File-system access in `Config::load`/`Config::save` is modelled by passing
  the file content explicitly (`Option (List Char)`: `none` is a missing or
  unreadable file).  The standard-library float parser and formatter
  (`str::parse::<f32>` and `Display for f32`) are external to the repository
  and are modelled as explicit function arguments.
-/

/-- The enum `ShapeType` from `main.rs` (lines 9-14); `Hexagon` is the
`#[default]` variant. -/
inductive ShapeType where
  | Hexagon
  | Heart
deriving DecidableEq, Inhabited

/-- The struct `Config` from `main.rs` (lines 16-20).  The Rust `Default`
derive gives `shape = Hexagon` and `threshold = 0.0`. -/
structure Config where
  shape : ShapeType
  threshold : ℚ
deriving DecidableEq

/-- `Config::default()`: default shape `Hexagon`, default threshold `0.0`. -/
def Config.default : Config := { shape := ShapeType.Hexagon, threshold := 0 }

/-- Rust `f32::clamp(lo, hi)`: below `lo` gives `lo`, above `hi` gives `hi`,
otherwise the value itself. -/
def rust_clamp (x lo hi : ℚ) : ℚ :=
  if x < lo then lo else if hi < x then hi else x

/-- Rust `str::split(sep)` on a character separator, over the character list
of the string: always returns at least one (possibly empty) piece, and one
extra piece per separator occurrence. -/
def splitChar (sep : Char) : List Char → List (List Char)
  | [] => [[]]
  | c :: rest =>
    if c = sep then [] :: splitChar sep rest
    else
      match splitChar sep rest with
      | [] => [[c]]
      | h :: t => (c :: h) :: t

/-- Rust `str::trim`: drop leading and trailing whitespace characters. -/
def rust_trim (l : List Char) : List Char :=
  ((l.dropWhile fun c => c.isWhitespace).reverse.dropWhile fun c =>
    c.isWhitespace).reverse

/-- Rust `str::lines`: split at newlines, with the final line ending
optional, and a trailing carriage return stripped from each line. -/
def rust_lines (s : List Char) : List (List Char) :=
  let parts := splitChar '\n' s
  let parts2 := if parts.getLast? = some [] then parts.dropLast else parts
  parts2.map fun l => if l.getLast? = some '\r' then l.dropLast else l

/-- The body of the `for line in lines` loop of `Config::load` (`main.rs`
lines 29-51): split the line at `=`, and when that yields exactly two
pieces, dispatch on the trimmed key.  `parseFloat` models the external
`str::parse::<f32>` call. -/
def Config.apply_line (parseFloat : List Char → Option ℚ) (config : Config)
    (line : List Char) : Config :=
  match splitChar '=' line with
  | [k, v] =>
    let key := rust_trim k
    let value := rust_trim v
    if key = "shape".toList then
      { config with
        shape := if value = "heart".toList then ShapeType.Heart
                 else ShapeType.Hexagon }
    else if key = "threshold".toList then
      match parseFloat value with
      | some val => { config with threshold := rust_clamp val 0 1 }
      | none => config
    else config
  | _ => config

/-- `Config::load` (`main.rs` lines 23-56).  `content` is the result of
`fs::read_to_string`: `none` for a missing or unreadable file. -/
def Config.load (parseFloat : List Char → Option ℚ)
    (content : Option (List Char)) : Config :=
  match content with
  | some content =>
    (rust_lines content).foldl (Config.apply_line parseFloat) Config.default
  | none => Config.default

/-- The string written by `Config::save` for the shape key. -/
def shape_str : ShapeType → List Char
  | ShapeType.Hexagon => "hexagon".toList
  | ShapeType.Heart => "heart".toList

/-- `Config::save` (`main.rs` lines 58-69): the file content written,
`format!("shape={}\nthreshold={}\n", shape_str, self.threshold)`.  `display`
models the external `Display` implementation for `f32`. -/
def Config.save (display : ℚ → List Char) (c : Config) : List Char :=
  "shape=".toList ++ shape_str c.shape ++ "\n".toList ++
    "threshold=".toList ++ display c.threshold ++ "\n".toList

/-- The macroquad `Color` struct: four `f32` channels. -/
structure Color where
  r : ℝ
  g : ℝ
  b : ℝ
  a : ℝ

/-- `Color::new`. -/
def Color.new (r g b a : ℝ) : Color := { r := r, g := g, b := b, a := a }

/-- `random_color()` (`main.rs` lines 144-151), with the three
`rand::gen_range(0.0, 1.0)` draws passed in explicitly; the alpha channel is
the literal `1.0`. -/
def random_color (r g b : ℝ) : Color := Color.new r g b 1

/-- The struct `Shape` from `main.rs` (lines 83-91): one animated grid
cell. -/
structure Shape where
  x : ℝ
  y : ℝ
  radius : ℝ
  color : Color
  next_color : Color
  transition_progress : ℝ
  phase_offset : ℝ

/-- `Shape::new` (`main.rs` lines 94-104), with the random draws for the two
colors and for `phase_offset = rand::gen_range(0.0, 2.0 * PI)` passed in
explicitly. -/
def Shape.new (x y radius : ℝ) (r1 g1 b1 r2 g2 b2 phase : ℝ) : Shape :=
  { x := x
    y := y
    radius := radius
    color := random_color r1 g1 b1
    next_color := random_color r2 g2 b2
    transition_progress := 0
    phase_offset := phase }

/-- `Shape::update` (`main.rs` lines 106-114).  The `_time` parameter of the
Rust function is unused and omitted.  `fr`, `fg`, `fb` are the random draws
used for the fresh `random_color()` when the transition completes. -/
noncomputable def Shape.update (s : Shape) (dt : ℝ) (fr fg fb : ℝ) : Shape :=
  let tp := s.transition_progress + dt * 0.3
  if 1 ≤ tp then
    { s with
      color := s.next_color
      next_color := random_color fr fg fb
      transition_progress := 0 }
  else
    { s with transition_progress := tp }

/-- The opacity computation at the head of `Shape::draw` (`main.rs` lines
115-123).  The Rust code writes `.powf(2.0)`; on the branch where it is
evaluated the base is the quotient of two positive numbers whenever
`raw_value > threshold` can hold at all (which forces `threshold < 1`), so
`powf` agrees with squaring. -/
noncomputable def draw_opacity (threshold time phase_offset : ℝ) : ℝ :=
  let phase_speed := (1 - threshold) * 10
  let raw_value := Real.sin (time * phase_speed + phase_offset)
  if raw_value > threshold then
    ((raw_value - threshold) / (1 - threshold)) ^ 2
  else
    0

/-- The opacity expression of `Shape::draw` (`main.rs` lines 119-123) as a
function of the already-computed sine sample `raw_value`; `draw_opacity`
is exactly this applied to the sine. -/
noncomputable def visibility_raw (threshold raw_value : ℝ) : ℝ :=
  if raw_value > threshold then
    ((raw_value - threshold) / (1 - threshold)) ^ 2
  else
    0

/-- The interpolated color built in `Shape::draw` (`main.rs` lines 129-134):
each RGB channel is linearly interpolated from `color` toward `next_color`
by `transition_progress`, and the alpha channel is the computed opacity. -/
def Shape.current_color (s : Shape) (opacity : ℝ) : Color :=
  Color.new
    (s.color.r + (s.next_color.r - s.color.r) * s.transition_progress)
    (s.color.g + (s.next_color.g - s.color.g) * s.transition_progress)
    (s.color.b + (s.next_color.b - s.color.b) * s.transition_progress)
    opacity

/-- A drawing call emitted by `Shape::draw`: either
`draw_hexagon(x, y, radius, rotation, filled, color)` or
`draw_heart(x, y, size, color)`. -/
inductive DrawCmd where
  | hexagon (x y radius rotation : ℝ) (filled : Bool) (color : Color)
  | heart (x y size : ℝ) (color : Color)

/-- `Shape::draw` (`main.rs` lines 115-140): compute the opacity, emit
nothing when it is at most `0.01`, otherwise emit the shape-dispatch call
with the interpolated color. -/
noncomputable def Shape.draw (s : Shape) (time : ℝ) (shape_type : ShapeType)
    (threshold : ℝ) : Option DrawCmd :=
  let opacity := draw_opacity threshold time s.phase_offset
  if opacity ≤ 0.01 then none
  else
    let current_color := s.current_color opacity
    some (match shape_type with
      | ShapeType.Hexagon =>
          DrawCmd.hexagon s.x s.y s.radius 0 true current_color
      | ShapeType.Heart => DrawCmd.heart s.x s.y s.radius current_color)

/-- `segments` from `draw_heart` (`main.rs` line 156). -/
def heart_segments : ℕ := 100

/-- The vertex list built by `draw_heart` (`main.rs` lines 156-173):
`segments + 1` samples of the parametric heart, scaled by `size / 20` and
translated by the center `(x, y)`. -/
noncomputable def heart_points (x y size : ℝ) : List (ℝ × ℝ) :=
  (List.range (heart_segments + 1)).map fun i : ℕ =>
    let t := (i : ℝ) / (heart_segments : ℝ) * 2 * Real.pi
    let heart_x := 16 * Real.sin t ^ 3
    let heart_y := -(13 * Real.cos t - 5 * Real.cos (2 * t) -
      2 * Real.cos (3 * t) - Real.cos (4 * t))
    let scale := size / 20
    (x + heart_x * scale, y + heart_y * scale)

/-- The constant `SIN_60` from `main.rs` line 7: the program hard-codes the
decimal approximation `0.866` of `sin 60°`. -/
def SIN_60 : ℚ := 0.866

/-- Rust `f32 as i32`: truncation toward zero (saturation and NaN behaviour
never arise at the values the program computes). -/
def f32_trunc (x : ℚ) : ℤ := if 0 ≤ x then ⌊x⌋ else ⌈x⌉

/-- `create_hexgrid` (`main.rs` lines 209-225): the row-major list of cell
centers, two per `(row, col)` pair — the base point and the offset point of
the brick pattern. -/
def create_hexgrid (hex_radius width height : ℚ) : List (ℚ × ℚ) :=
  let hex_height := SIN_60 * hex_radius * 2
  let num_cols := f32_trunc (width / hex_radius * 2) + 2
  let num_rows := f32_trunc (height / hex_radius * 2) + 2
  (List.range num_rows.toNat).flatMap fun row =>
    (List.range num_cols.toNat).flatMap fun col =>
      let x := (col : ℚ) * hex_radius * 3
      let y := (row : ℚ) * hex_height
      [(x, y), (x + hex_radius * 1.5, y + hex_height * 0.5)]

/-- The opacity of `Shape::draw` is the raw-value visibility ramp applied to
the sine sample. -/
theorem draw_opacity_eq_visibility_raw (threshold time phase_offset : ℝ) :
    draw_opacity threshold time phase_offset =
      visibility_raw threshold
        (Real.sin (time * ((1 - threshold) * 10) + phase_offset)) := rfl

/-- C1: for every threshold in `[0,1]`, time and phase offset, with
`phase_speed = (1 - threshold) * 10` and
`raw = sin (time * phase_speed + phase_offset)`, the per-cell opacity is `0`
when `raw ≤ threshold` and `((raw - threshold) / (1 - threshold))^2` when
`raw > threshold`. -/
theorem opacity_piecewise_formula (threshold time phase_offset : ℝ)
    (h0 : 0 ≤ threshold) (h1 : threshold ≤ 1) :
    (Real.sin (time * ((1 - threshold) * 10) + phase_offset) ≤ threshold →
      draw_opacity threshold time phase_offset = 0) ∧
    (threshold < Real.sin (time * ((1 - threshold) * 10) + phase_offset) →
      draw_opacity threshold time phase_offset =
        ((Real.sin (time * ((1 - threshold) * 10) + phase_offset) -
          threshold) / (1 - threshold)) ^ 2) := by
  constructor
  · intro h
    simp only [draw_opacity]
    rw [if_neg (not_lt.mpr h)]
  · intro h
    simp only [draw_opacity]
    rw [if_pos h]

/-- Witness for C1: at `threshold = 1/2`, `time = 0`, `phase_offset = 0` the
sine sample is `0 ≤ 1/2`, so the opacity is `0`. -/
theorem opacity_piecewise_formula_witness :
    (0:ℝ) ≤ 1/2 ∧ (1/2:ℝ) ≤ 1 ∧ draw_opacity (1/2) 0 0 = 0 :=
  ⟨by norm_num, by norm_num,
    (opacity_piecewise_formula (1/2) 0 0 (by norm_num) (by norm_num)).1
      (by simp)⟩

/-- C5: for every threshold in `[0,1)` and raw value in `(threshold, 1]` the
visibility lies in `(0,1]`, it is strictly increasing in the raw value on
that interval, and at the peak `raw = 1` it is exactly `1`. -/
theorem visibility_raw_range_mono (threshold : ℝ) (h0 : 0 ≤ threshold)
    (h1 : threshold < 1) :
    (∀ raw, threshold < raw → raw ≤ 1 →
      0 < visibility_raw threshold raw ∧ visibility_raw threshold raw ≤ 1) ∧
    (∀ r1 r2, threshold < r1 → r1 < r2 → r2 ≤ 1 →
      visibility_raw threshold r1 < visibility_raw threshold r2) ∧
    visibility_raw threshold 1 = 1 := by
  have hu : (0:ℝ) < 1 - threshold := by linarith
  refine ⟨fun raw hlt hle => ?_, fun r1 r2 hr1 h12 hr2 => ?_, ?_⟩
  · simp only [visibility_raw]
    rw [if_pos hlt]
    constructor
    · exact pow_pos (div_pos (by linarith) hu) 2
    · exact pow_le_one₀ (le_of_lt (div_pos (by linarith) hu))
        (by rw [div_le_one hu]; linarith)
  · simp only [visibility_raw]
    rw [if_pos hr1, if_pos (lt_trans hr1 h12)]
    have hb1 : (0:ℝ) ≤ (r1 - threshold) / (1 - threshold) :=
      le_of_lt (div_pos (by linarith) hu)
    have hstep : (r1 - threshold) / (1 - threshold) <
        (r2 - threshold) / (1 - threshold) := by gcongr
    exact pow_lt_pow_left₀ hstep hb1 two_ne_zero
  · simp only [visibility_raw]
    rw [if_pos h1, div_self (ne_of_gt hu), one_pow]

/-- Witness for C5: at `threshold = 0` the visibility is positive and at
most one on `(0,1]`, strictly increasing from `1/2` to `3/4`, and `1` at the
peak. -/
theorem visibility_raw_range_mono_witness :
    (0:ℝ) ≤ 0 ∧ (0:ℝ) < 1 ∧
    (0 < visibility_raw 0 (1/2) ∧ visibility_raw 0 (1/2) ≤ 1) ∧
    visibility_raw 0 (1/2) < visibility_raw 0 (3/4) ∧
    visibility_raw 0 1 = 1 :=
  ⟨le_rfl, by norm_num,
    (visibility_raw_range_mono 0 le_rfl (by norm_num)).1 (1/2) (by norm_num)
      (by norm_num),
    (visibility_raw_range_mono 0 le_rfl (by norm_num)).2.1 (1/2) (3/4)
      (by norm_num) (by norm_num) (by norm_num),
    (visibility_raw_range_mono 0 le_rfl (by norm_num)).2.2⟩

/-- C10: when the threshold is at least `1`, the sine sample can never
exceed it, so the ramp branch (and with it the division by
`1 - threshold`) is unreachable, the opacity is `0`, and `Shape::draw`
emits nothing. -/
theorem threshold_one_blank (threshold time phase_offset : ℝ)
    (h : 1 ≤ threshold) (s : Shape) (shape_type : ShapeType) :
    draw_opacity threshold time phase_offset = 0 ∧
    Shape.draw s time shape_type threshold = none := by
  have hop : ∀ ph : ℝ, draw_opacity threshold time ph = 0 := by
    intro ph
    simp only [draw_opacity]
    rw [if_neg (not_lt.mpr (le_trans (Real.sin_le_one _) h))]
  refine ⟨hop phase_offset, ?_⟩
  simp only [Shape.draw, hop s.phase_offset]
  rw [if_pos (by norm_num)]

/-- Witness for C10: at `threshold = 1` a concrete cell draws nothing and
its opacity is `0`. -/
theorem threshold_one_blank_witness :
    (1:ℝ) ≤ 1 ∧ draw_opacity 1 0 0 = 0 ∧
    Shape.draw ⟨0, 0, 40, ⟨0, 0, 0, 1⟩, ⟨1, 1, 1, 1⟩, 0, 0⟩ 0
      ShapeType.Hexagon 1 = none :=
  ⟨le_rfl,
    (threshold_one_blank 1 0 0 le_rfl
      ⟨0, 0, 40, ⟨0, 0, 0, 1⟩, ⟨1, 1, 1, 1⟩, 0, 0⟩ ShapeType.Hexagon).1,
    (threshold_one_blank 1 0 0 le_rfl
      ⟨0, 0, 40, ⟨0, 0, 0, 1⟩, ⟨1, 1, 1, 1⟩, 0, 0⟩ ShapeType.Hexagon).2⟩

/-- C3: `update` advances `transition_progress` by `dt * 0.3`; when the
advanced value reaches or crosses `1.0` the colors rotate (`color` becomes
the old `next_color`, a fresh `random_color` with alpha `1` becomes
`next_color`) and the progress resets to `0`; otherwise only the progress
changes. -/
theorem update_transition_step (s : Shape) (dt fr fg fb : ℝ) (hdt : 0 ≤ dt)
    (hfr0 : 0 ≤ fr) (hfr1 : fr ≤ 1) (hfg0 : 0 ≤ fg) (hfg1 : fg ≤ 1)
    (hfb0 : 0 ≤ fb) (hfb1 : fb ≤ 1) :
    (1 ≤ s.transition_progress + dt * 0.3 →
      Shape.update s dt fr fg fb =
        { s with
          color := s.next_color
          next_color := Color.new fr fg fb 1
          transition_progress := 0 }) ∧
    (s.transition_progress + dt * 0.3 < 1 →
      Shape.update s dt fr fg fb =
        { s with
          transition_progress := s.transition_progress + dt * 0.3 }) ∧
    (random_color fr fg fb).a = 1 := by
  refine ⟨fun h => ?_, fun h => ?_, rfl⟩
  · simp only [Shape.update]
    rw [if_pos h]
    rfl
  · simp only [Shape.update]
    rw [if_neg (not_le.mpr h)]

/-- Witness for C3: a concrete cell with progress `0` crosses `1.0` after
`dt = 4` (`0 + 4 * 0.3 = 1.2`), committing the colors, and stays below `1.0`
after `dt = 1` (`0 + 1 * 0.3 = 0.3`), changing only the progress. -/
theorem update_transition_step_witness :
    (0:ℝ) ≤ 4 ∧ (0:ℝ) ≤ 1/2 ∧ (1/2:ℝ) ≤ 1 ∧
    Shape.update ⟨0, 0, 40, ⟨0, 0, 0, 1⟩, ⟨1, 1/2, 0, 1⟩, 0, 0⟩ 4
        (1/2) (1/2) (1/2) =
      { (⟨0, 0, 40, ⟨0, 0, 0, 1⟩, ⟨1, 1/2, 0, 1⟩, 0, 0⟩ : Shape) with
        color := (⟨1, 1/2, 0, 1⟩ : Color)
        next_color := Color.new (1/2) (1/2) (1/2) 1
        transition_progress := 0 } ∧
    Shape.update ⟨0, 0, 40, ⟨0, 0, 0, 1⟩, ⟨1, 1/2, 0, 1⟩, 0, 0⟩ 1
        (1/2) (1/2) (1/2) =
      { (⟨0, 0, 40, ⟨0, 0, 0, 1⟩, ⟨1, 1/2, 0, 1⟩, 0, 0⟩ : Shape) with
        transition_progress := (0:ℝ) + 1 * 0.3 } :=
  ⟨by norm_num, by norm_num, by norm_num,
    (update_transition_step ⟨0, 0, 40, ⟨0, 0, 0, 1⟩, ⟨1, 1/2, 0, 1⟩, 0, 0⟩ 4
      (1/2) (1/2) (1/2) (by norm_num) (by norm_num) (by norm_num)
      (by norm_num) (by norm_num) (by norm_num) (by norm_num)).1
      (by norm_num),
    (update_transition_step ⟨0, 0, 40, ⟨0, 0, 0, 1⟩, ⟨1, 1/2, 0, 1⟩, 0, 0⟩ 1
      (1/2) (1/2) (1/2) (by norm_num) (by norm_num) (by norm_num)
      (by norm_num) (by norm_num) (by norm_num) (by norm_num)).2.1
      (by norm_num)⟩

/-- Every RGB channel of a color lies in `[0,1]`. -/
def Color.channels_in_01 (c : Color) : Prop :=
  0 ≤ c.r ∧ c.r ≤ 1 ∧ 0 ≤ c.g ∧ c.g ≤ 1 ∧ 0 ≤ c.b ∧ c.b ≤ 1

/-- The data invariant of a cell: both stored colors have RGB channels in
`[0,1]` and the transition progress lies in `[0,1)`. -/
def Shape.color_invariant (s : Shape) : Prop :=
  Color.channels_in_01 s.color ∧ Color.channels_in_01 s.next_color ∧
  0 ≤ s.transition_progress ∧ s.transition_progress < 1

/-- C4: cell creation establishes the invariant (given that the random
draws for the channels lie in `[0,1]`), and every `update` with `dt ≥ 0`
preserves it. -/
theorem shape_invariant_preserved :
    (∀ x y radius r1 g1 b1 r2 g2 b2 phase : ℝ,
      0 ≤ r1 → r1 ≤ 1 → 0 ≤ g1 → g1 ≤ 1 → 0 ≤ b1 → b1 ≤ 1 →
      0 ≤ r2 → r2 ≤ 1 → 0 ≤ g2 → g2 ≤ 1 → 0 ≤ b2 → b2 ≤ 1 →
      Shape.color_invariant (Shape.new x y radius r1 g1 b1 r2 g2 b2 phase)) ∧
    (∀ (s : Shape) (dt fr fg fb : ℝ),
      Shape.color_invariant s → 0 ≤ dt →
      0 ≤ fr → fr ≤ 1 → 0 ≤ fg → fg ≤ 1 → 0 ≤ fb → fb ≤ 1 →
      Shape.color_invariant (Shape.update s dt fr fg fb)) := by
  constructor
  · intro x y radius r1 g1 b1 r2 g2 b2 phase h1 h2 h3 h4 h5 h6 h7 h8 h9 h10
      h11 h12
    simp only [Shape.color_invariant, Color.channels_in_01, Shape.new,
      random_color, Color.new]
    exact ⟨⟨h1, h2, h3, h4, h5, h6⟩, ⟨h7, h8, h9, h10, h11, h12⟩, le_rfl,
      by norm_num⟩
  · intro s dt fr fg fb hinv hdt hr0 hr1 hg0 hg1 hb0 hb1
    obtain ⟨hc, hn, hp0, hp1⟩ := hinv
    simp only [Shape.update]
    by_cases h : (1:ℝ) ≤ s.transition_progress + dt * 0.3
    · rw [if_pos h]
      exact ⟨hn, ⟨hr0, hr1, hg0, hg1, hb0, hb1⟩, le_rfl, by norm_num⟩
    · rw [if_neg h]
      have hstep : (0:ℝ) ≤ dt * 0.3 := mul_nonneg hdt (by norm_num)
      exact ⟨hc, hn, by linarith, not_le.mp h⟩

/-- Witness for C4: the invariant holds for a freshly created concrete cell
and is preserved by a concrete update. -/
theorem shape_invariant_preserved_witness :
    Shape.color_invariant
      (Shape.new 10 20 40 0 (1/2) 1 1 (1/2) 0 3) ∧
    Shape.color_invariant
      (Shape.update (Shape.new 10 20 40 0 (1/2) 1 1 (1/2) 0 3) (1/2)
        (1/4) (1/4) (1/4)) :=
  ⟨shape_invariant_preserved.1 10 20 40 0 (1/2) 1 1 (1/2) 0 3
      (by norm_num) (by norm_num) (by norm_num) (by norm_num) (by norm_num)
      (by norm_num) (by norm_num) (by norm_num) (by norm_num) (by norm_num)
      (by norm_num) (by norm_num),
    shape_invariant_preserved.2 (Shape.new 10 20 40 0 (1/2) 1 1 (1/2) 0 3)
      (1/2) (1/4) (1/4) (1/4)
      (shape_invariant_preserved.1 10 20 40 0 (1/2) 1 1 (1/2) 0 3
        (by norm_num) (by norm_num) (by norm_num) (by norm_num) (by norm_num)
        (by norm_num) (by norm_num) (by norm_num) (by norm_num) (by norm_num)
        (by norm_num) (by norm_num))
      (by norm_num) (by norm_num) (by norm_num) (by norm_num) (by norm_num)
      (by norm_num) (by norm_num)⟩

/-- C6: the drawn color interpolates each RGB channel as
`current + (next - current) * transition_progress` with alpha equal to the
computed opacity; at `transition_progress = 0` it is exactly the current
color, and whenever the opacity exceeds the `0.01` floor, `Shape::draw`
emits exactly this color on the selected shape. -/
theorem current_color_interpolation (s : Shape) (opacity time threshold : ℝ) :
    ((s.current_color opacity).r =
        s.color.r + (s.next_color.r - s.color.r) * s.transition_progress ∧
      (s.current_color opacity).g =
        s.color.g + (s.next_color.g - s.color.g) * s.transition_progress ∧
      (s.current_color opacity).b =
        s.color.b + (s.next_color.b - s.color.b) * s.transition_progress ∧
      (s.current_color opacity).a = opacity) ∧
    (s.transition_progress = 0 →
      (s.current_color opacity).r = s.color.r ∧
      (s.current_color opacity).g = s.color.g ∧
      (s.current_color opacity).b = s.color.b) ∧
    (¬ draw_opacity threshold time s.phase_offset ≤ 0.01 →
      Shape.draw s time ShapeType.Hexagon threshold =
        some (DrawCmd.hexagon s.x s.y s.radius 0 true
          (s.current_color (draw_opacity threshold time s.phase_offset))) ∧
      Shape.draw s time ShapeType.Heart threshold =
        some (DrawCmd.heart s.x s.y s.radius
          (s.current_color (draw_opacity threshold time s.phase_offset)))) := by
  refine ⟨⟨rfl, rfl, rfl, rfl⟩, fun h => ?_, fun h => ?_⟩
  · simp [Shape.current_color, Color.new, h]
  · constructor
    · simp only [Shape.draw]
      rw [if_neg h]
    · simp only [Shape.draw]
      rw [if_neg h]

/-- Witness for C6: a concrete cell with progress `0` and phase `π/2`
(where the opacity at `time = 0`, `threshold = 0` is `1 > 0.01`): the alpha
is the opacity, the red channel equals the current color's red, and `draw`
emits the interpolated color. -/
theorem current_color_interpolation_witness :
    (Shape.current_color
      ⟨1, 2, 40, ⟨1/4, 1/2, 3/4, 1⟩, ⟨1, 0, 0, 1⟩, 0, Real.pi / 2⟩
      (1/2)).a = 1/2 ∧
    (Shape.current_color
      ⟨1, 2, 40, ⟨1/4, 1/2, 3/4, 1⟩, ⟨1, 0, 0, 1⟩, 0, Real.pi / 2⟩
      (1/2)).r = (1/4 : ℝ) ∧
    Shape.draw ⟨1, 2, 40, ⟨1/4, 1/2, 3/4, 1⟩, ⟨1, 0, 0, 1⟩, 0, Real.pi / 2⟩
        0 ShapeType.Hexagon 0 =
      some (DrawCmd.hexagon 1 2 40 0 true
        (Shape.current_color
          ⟨1, 2, 40, ⟨1/4, 1/2, 3/4, 1⟩, ⟨1, 0, 0, 1⟩, 0, Real.pi / 2⟩
          (draw_opacity 0 0 (Real.pi / 2)))) := by
  have hop : draw_opacity 0 0 (Real.pi / 2) = 1 := by
    have harg : (0:ℝ) * ((1 - 0) * 10) + Real.pi / 2 = Real.pi / 2 := by
      ring
    simp only [draw_opacity, harg, Real.sin_pi_div_two]
    norm_num
  refine ⟨(current_color_interpolation
      ⟨1, 2, 40, ⟨1/4, 1/2, 3/4, 1⟩, ⟨1, 0, 0, 1⟩, 0, Real.pi / 2⟩
      (1/2) 0 0).1.2.2.2,
    ((current_color_interpolation
      ⟨1, 2, 40, ⟨1/4, 1/2, 3/4, 1⟩, ⟨1, 0, 0, 1⟩, 0, Real.pi / 2⟩
      (1/2) 0 0).2.1 rfl).1,
    ((current_color_interpolation
      ⟨1, 2, 40, ⟨1/4, 1/2, 3/4, 1⟩, ⟨1, 0, 0, 1⟩, 0, Real.pi / 2⟩
      0 0 0).2.2 (by rw [hop]; norm_num)).1⟩

/-- The cosine of `4π` is `1`. -/
theorem cos_four_pi : Real.cos (4 * Real.pi) = 1 := by
  have h : (4:ℝ) * Real.pi = 2 * Real.pi + 2 * Real.pi := by ring
  rw [h, Real.cos_add_two_pi, Real.cos_two_pi]

/-- The cosine of `6π` is `1`. -/
theorem cos_six_pi : Real.cos (6 * Real.pi) = 1 := by
  have h : (6:ℝ) * Real.pi = 4 * Real.pi + 2 * Real.pi := by ring
  rw [h, Real.cos_add_two_pi, cos_four_pi]

/-- The cosine of `8π` is `1`. -/
theorem cos_eight_pi : Real.cos (8 * Real.pi) = 1 := by
  have h : (8:ℝ) * Real.pi = 6 * Real.pi + 2 * Real.pi := by
    ring
  rw [h, Real.cos_add_two_pi, cos_six_pi]

/-- C7: for every center and size, the heart outline has exactly
`segments + 1 = 101` vertices, vertex `i` samples the parametric heart at
`t = i/100 * 2π` scaled by `size/20` and translated by the center, and the
first and last vertices coincide. -/
theorem heart_points_spec (x y size : ℝ) :
    (heart_points x y size).length = heart_segments + 1 ∧
    heart_segments = 100 ∧
    (∀ i : ℕ, i ≤ 100 →
      (heart_points x y size)[i]? =
        some
          (x + 16 * Real.sin ((i : ℝ) / 100 * 2 * Real.pi) ^ 3 * (size / 20),
           y + -(13 * Real.cos ((i : ℝ) / 100 * 2 * Real.pi) -
             5 * Real.cos (2 * ((i : ℝ) / 100 * 2 * Real.pi)) -
             2 * Real.cos (3 * ((i : ℝ) / 100 * 2 * Real.pi)) -
             Real.cos (4 * ((i : ℝ) / 100 * 2 * Real.pi))) * (size / 20))) ∧
    (heart_points x y size)[0]? = (heart_points x y size)[100]? := by
  have helem : ∀ i : ℕ, i ≤ 100 →
      (heart_points x y size)[i]? =
        some
          (x + 16 * Real.sin ((i : ℝ) / 100 * 2 * Real.pi) ^ 3 * (size / 20),
           y + -(13 * Real.cos ((i : ℝ) / 100 * 2 * Real.pi) -
             5 * Real.cos (2 * ((i : ℝ) / 100 * 2 * Real.pi)) -
             2 * Real.cos (3 * ((i : ℝ) / 100 * 2 * Real.pi)) -
             Real.cos (4 * ((i : ℝ) / 100 * 2 * Real.pi))) * (size / 20)) := by
    intro i hi
    simp only [heart_points, heart_segments, List.getElem?_map]
    rw [List.getElem?_range (by omega : i < 100 + 1)]
    simp only [Option.map_some', Nat.cast_ofNat]
  refine ⟨?_, rfl, helem, ?_⟩
  · simp only [heart_points, List.length_map, List.length_range]
  rw [helem 0 (by norm_num), helem 100 (by norm_num)]
  have h0 : ((0:ℕ) : ℝ) / 100 * 2 * Real.pi = 0 := by
    norm_num
  have h100 : ((100:ℕ) : ℝ) / 100 * 2 * Real.pi = 2 * Real.pi := by
    norm_num
  rw [h0, h100]
  have c2 : Real.cos (2 * (2 * Real.pi)) = 1 := by
    have h : (2:ℝ) * (2 * Real.pi) = 4 * Real.pi := by ring
    rw [h, cos_four_pi]
  have c3 : Real.cos (3 * (2 * Real.pi)) = 1 := by
    have h : (3:ℝ) * (2 * Real.pi) = 6 * Real.pi := by ring
    rw [h, cos_six_pi]
  have c4 : Real.cos (4 * (2 * Real.pi)) = 1 := by
    have h : (4:ℝ) * (2 * Real.pi) = 8 * Real.pi := by ring
    rw [h, cos_eight_pi]
  simp [Real.sin_two_pi, Real.cos_two_pi, c2, c3, c4]

/-- Witness for C7: for the heart centered at the origin with size 20 the
vertex count is 101, vertex 50 matches the parametric formula, and the
endpoints coincide. -/
theorem heart_points_spec_witness :
    (heart_points 0 0 20).length = heart_segments + 1 ∧
    (heart_points 0 0 20)[50]? =
      some
        (0 + 16 * Real.sin (((50:ℕ) : ℝ) / 100 * 2 * Real.pi) ^ 3 * (20 / 20),
         0 + -(13 * Real.cos (((50:ℕ) : ℝ) / 100 * 2 * Real.pi) -
           5 * Real.cos (2 * (((50:ℕ) : ℝ) / 100 * 2 * Real.pi)) -
           2 * Real.cos (3 * (((50:ℕ) : ℝ) / 100 * 2 * Real.pi)) -
           Real.cos (4 * (((50:ℕ) : ℝ) / 100 * 2 * Real.pi))) * (20 / 20)) ∧
    (heart_points 0 0 20)[0]? = (heart_points 0 0 20)[100]? :=
  ⟨(heart_points_spec 0 0 20).1,
    (heart_points_spec 0 0 20).2.2.1 50 (by norm_num),
    (heart_points_spec 0 0 20).2.2.2⟩

/-- On nonnegative arguments the `as i32` truncation is the floor. -/
theorem f32_trunc_of_nonneg (x : ℚ) (hx : 0 ≤ x) : f32_trunc x = ⌊x⌋ := by
  simp only [f32_trunc]
  rw [if_pos hx]

/-- The number of points `create_hexgrid` produces: two per (row, column)
pair. -/
theorem create_hexgrid_length (hex_radius width height : ℚ) :
    (create_hexgrid hex_radius width height).length =
      2 * (f32_trunc (height / hex_radius * 2) + 2).toNat *
        (f32_trunc (width / hex_radius * 2) + 2).toNat := by
  simp only [create_hexgrid, List.length_flatMap, Function.comp_def,
    List.length_cons, List.length_singleton, List.length_nil,
    List.map_const', List.sum_replicate, List.length_map, List.length_range,
    smul_eq_mul]
  ring

/-- The points of `create_hexgrid`: the base point and the offset point of
each (row, column) pair, with vertical spacing `SIN_60 * radius * 2` and
horizontal spacing `3 * radius`. -/
theorem mem_create_hexgrid (hex_radius width height : ℚ) (p : ℚ × ℚ) :
    p ∈ create_hexgrid hex_radius width height ↔
      ∃ row : ℕ, row < (f32_trunc (height / hex_radius * 2) + 2).toNat ∧
        ∃ col : ℕ, col < (f32_trunc (width / hex_radius * 2) + 2).toNat ∧
          (p = ((col : ℚ) * hex_radius * 3,
                (row : ℚ) * (SIN_60 * hex_radius * 2)) ∨
           p = ((col : ℚ) * hex_radius * 3 + hex_radius * 1.5,
                (row : ℚ) * (SIN_60 * hex_radius * 2) +
                  SIN_60 * hex_radius * 2 * 0.5)) := by
  simp only [create_hexgrid, List.mem_flatMap, List.mem_range,
    List.mem_cons, List.mem_singleton, List.not_mem_nil, or_false]

/-- C2 (amended): for every cell radius > 0 and nonnegative viewport
dimensions, `create_hexgrid` lays cell centers in rows with vertical
spacing `SIN_60 * radius * 2` (the code's hard-wired `0.866` approximation
of `2 * radius * sin 60°`) and horizontal spacing `3 * radius`, emits per
row-position a second point offset by `(1.5 * radius, 0.5 * cellHeight)`,
uses row and column counts equal to `trunc(viewportDim / radius * 2) + 2`
(truncation rather than ceiling, and the factor 2 multiplies the quotient
`viewportDim / radius` instead of the radius), and returns exactly
`2 * rows * cols` points. -/
theorem create_hexgrid_layout (hex_radius width height : ℚ)
    (hr : 0 < hex_radius) (hw : 0 ≤ width) (hh : 0 ≤ height) :
    (create_hexgrid hex_radius width height).length =
      2 * (⌊height / hex_radius * 2⌋ + 2).toNat *
        (⌊width / hex_radius * 2⌋ + 2).toNat ∧
    (∀ p : ℚ × ℚ,
      p ∈ create_hexgrid hex_radius width height ↔
        ∃ row : ℕ, row < (⌊height / hex_radius * 2⌋ + 2).toNat ∧
          ∃ col : ℕ, col < (⌊width / hex_radius * 2⌋ + 2).toNat ∧
            (p = ((col : ℚ) * hex_radius * 3,
                  (row : ℚ) * (SIN_60 * hex_radius * 2)) ∨
             p = ((col : ℚ) * hex_radius * 3 + hex_radius * 1.5,
                  (row : ℚ) * (SIN_60 * hex_radius * 2) +
                    SIN_60 * hex_radius * 2 * 0.5))) := by
  have hwd : f32_trunc (width / hex_radius * 2) =
      ⌊width / hex_radius * 2⌋ :=
    f32_trunc_of_nonneg _ (mul_nonneg (div_nonneg hw hr.le) (by norm_num))
  have hht : f32_trunc (height / hex_radius * 2) =
      ⌊height / hex_radius * 2⌋ :=
    f32_trunc_of_nonneg _ (mul_nonneg (div_nonneg hh hr.le) (by norm_num))
  constructor
  · rw [create_hexgrid_length, hwd, hht]
  · intro p
    rw [mem_create_hexgrid, hwd, hht]

/-- C2 counterexample: at radius 40 and an 800 × 600 viewport the code
produces 2 * 32 * 42 = 2688 points, not the 2 * (⌈600/(40·2)⌉ + 2) *
(⌈800/(40·2)⌉ + 2) = 2 * 10 * 12 = 240 points of the claimed
`ceil(viewportDim / (radius * 2)) + 2` row/column counts. -/
theorem create_hexgrid_count_counterexample :
    ¬ ((create_hexgrid 40 800 600).length =
        2 * (⌈(600:ℚ) / (40 * 2)⌉ + 2).toNat *
          (⌈(800:ℚ) / (40 * 2)⌉ + 2).toNat) := by
  rw [create_hexgrid_length]
  have h1 : f32_trunc ((600:ℚ) / 40 * 2) = 30 := by
    rw [f32_trunc_of_nonneg _ (by norm_num), Int.floor_eq_iff]
    norm_num
  have h2 : f32_trunc ((800:ℚ) / 40 * 2) = 40 := by
    rw [f32_trunc_of_nonneg _ (by norm_num), Int.floor_eq_iff]
    norm_num
  have h3 : ⌈(600:ℚ) / (40 * 2)⌉ = 8 := by
    rw [Int.ceil_eq_iff]
    norm_num
  have h4 : ⌈(800:ℚ) / (40 * 2)⌉ = 10 := by
    rw [Int.ceil_eq_iff]
    norm_num
  rw [h1, h2, h3, h4]
  decide

/-- Witness for C2 (amended): the concrete grid at radius 40 on an
800 × 600 viewport satisfies the count formula and the membership
characterization instantiated at the origin. -/
theorem create_hexgrid_layout_witness :
    (0:ℚ) < 40 ∧ (0:ℚ) ≤ 800 ∧ (0:ℚ) ≤ 600 ∧
    (create_hexgrid 40 800 600).length =
      2 * (⌊(600:ℚ) / 40 * 2⌋ + 2).toNat *
        (⌊(800:ℚ) / 40 * 2⌋ + 2).toNat ∧
    (((0:ℚ), (0:ℚ)) ∈ create_hexgrid 40 800 600 ↔
      ∃ row : ℕ, row < (⌊(600:ℚ) / 40 * 2⌋ + 2).toNat ∧
        ∃ col : ℕ, col < (⌊(800:ℚ) / 40 * 2⌋ + 2).toNat ∧
          (((0:ℚ), (0:ℚ)) =
              ((col : ℚ) * 40 * 3, (row : ℚ) * (SIN_60 * 40 * 2)) ∨
           ((0:ℚ), (0:ℚ)) =
              ((col : ℚ) * 40 * 3 + 40 * 1.5,
               (row : ℚ) * (SIN_60 * 40 * 2) + SIN_60 * 40 * 2 * 0.5))) :=
  ⟨by norm_num, by norm_num, by norm_num,
    (create_hexgrid_layout 40 800 600 (by norm_num) (by norm_num)
      (by norm_num)).1,
    (create_hexgrid_layout 40 800 600 (by norm_num) (by norm_num)
      (by norm_num)).2 ((0:ℚ), (0:ℚ))⟩

/-- A separator-free list splits into the single piece consisting of the
whole list. -/
theorem splitChar_of_not_mem (sep : Char) (l : List Char) (h : sep ∉ l) :
    splitChar sep l = [l] := by
  induction l with
  | nil => rfl
  | cons c rest ih =>
    have hc : c ≠ sep := fun hceq => h (hceq ▸ List.mem_cons_self c rest)
    have hrest : sep ∉ rest := fun hm => h (List.mem_cons_of_mem c hm)
    simp only [splitChar]
    rw [if_neg hc, ih hrest]

/-- Splitting at the first separator occurrence: a separator-free prefix
becomes the first piece. -/
theorem splitChar_append (sep : Char) (a b : List Char) (ha : sep ∉ a) :
    splitChar sep (a ++ sep :: b) = a :: splitChar sep b := by
  induction a with
  | nil =>
    simp [splitChar]
  | cons c rest ih =>
    have hc : c ≠ sep := fun hceq => ha (hceq ▸ List.mem_cons_self c rest)
    have hrest : sep ∉ rest := fun hm => ha (List.mem_cons_of_mem c hm)
    simp only [List.cons_append, splitChar, List.append_eq]
    rw [if_neg hc, ih hrest]

/-- The carriage-return strip of `rust_lines` leaves a line without a
carriage return unchanged. -/
theorem strip_cr_of_not_mem (l : List Char) (hl : '\r' ∉ l) :
    (if l.getLast? = some '\r' then l.dropLast else l) = l := by
  rw [if_neg]
  intro hcontra
  obtain ⟨hne, heq2⟩ :=
    List.mem_getLast?_eq_getLast (l := l) (x := '\r') (hcontra ▸ rfl)
  exact hl (heq2 ▸ List.getLast_mem hne)

/-- The clamped threshold always lies in `[0,1]`. -/
theorem rust_clamp_mem (q : ℚ) : 0 ≤ rust_clamp q 0 1 ∧ rust_clamp q 0 1 ≤ 1 := by
  simp only [rust_clamp]
  split_ifs with hq1 hq2
  · norm_num
  · norm_num
  · exact ⟨not_lt.mp hq1, not_lt.mp hq2⟩

/-- C8: config loading degrades to defaults without failing: a missing or
unreadable file yields `{shape := Hexagon, threshold := 0}`; a threshold
line whose value does not parse is silently ignored; a threshold value
that does parse is clamped to `[0,1]`; and the shape key accepts `heart`,
any other value yielding the default `hexagon`. -/
theorem config_load_degrades (parseF : List Char → Option ℚ) :
    Config.load parseF none = Config.default ∧
    Config.default = { shape := ShapeType.Hexagon, threshold := 0 } ∧
    (∀ (cfg : Config) (v : List Char), '=' ∉ v →
      parseF (rust_trim v) = none →
      Config.apply_line parseF cfg ("threshold=".toList ++ v) = cfg) ∧
    (∀ (cfg : Config) (v : List Char) (q : ℚ), '=' ∉ v →
      parseF (rust_trim v) = some q →
      Config.apply_line parseF cfg ("threshold=".toList ++ v) =
        { cfg with threshold := rust_clamp q 0 1 } ∧
      0 ≤ rust_clamp q 0 1 ∧ rust_clamp q 0 1 ≤ 1) ∧
    (∀ (cfg : Config) (v : List Char), '=' ∉ v →
      Config.apply_line parseF cfg ("shape=".toList ++ v) =
        { cfg with
          shape := if rust_trim v = "heart".toList then ShapeType.Heart
                   else ShapeType.Hexagon }) := by
  have hsplitT : ∀ v : List Char, '=' ∉ v →
      splitChar '=' ("threshold=".toList ++ v) = ["threshold".toList, v] := by
    intro v hv
    have hform : "threshold=".toList ++ v =
        "threshold".toList ++ '=' :: v := rfl
    rw [hform, splitChar_append '=' _ _ (by decide),
      splitChar_of_not_mem '=' _ hv]
  have hsplitS : ∀ v : List Char, '=' ∉ v →
      splitChar '=' ("shape=".toList ++ v) = ["shape".toList, v] := by
    intro v hv
    have hform : "shape=".toList ++ v = "shape".toList ++ '=' :: v := rfl
    rw [hform, splitChar_append '=' _ _ (by decide),
      splitChar_of_not_mem '=' _ hv]
  refine ⟨rfl, rfl, fun cfg v hv hp => ?_, fun cfg v q hv hp => ?_,
    fun cfg v hv => ?_⟩
  · simp only [Config.apply_line, hsplitT v hv]
    rw [if_neg (by decide), if_pos (by decide), hp]
  · refine ⟨?_, rust_clamp_mem q⟩
    simp only [Config.apply_line, hsplitT v hv]
    rw [if_neg (by decide), if_pos (by decide), hp]
  · simp only [Config.apply_line, hsplitS v hv]
    rw [if_pos (by decide)]

/-- Witness for C8: with a concrete parse function, a missing file loads
the defaults, `threshold=notanumber` is ignored, `threshold=0.5` is parsed
and clamped, and `shape=heart` selects the heart shape. -/
theorem config_load_degrades_witness :
    Config.load (fun l => if l = "0.5".toList then some (1/2) else none)
      none = Config.default ∧
    Config.apply_line
        (fun l => if l = "0.5".toList then some (1/2) else none)
        { shape := ShapeType.Hexagon, threshold := 0 }
        ("threshold=".toList ++ "notanumber".toList) =
      { shape := ShapeType.Hexagon, threshold := 0 } ∧
    Config.apply_line
        (fun l => if l = "0.5".toList then some (1/2) else none)
        { shape := ShapeType.Hexagon, threshold := 0 }
        ("threshold=".toList ++ "0.5".toList) =
      { ({ shape := ShapeType.Hexagon, threshold := 0 } : Config) with
        threshold := rust_clamp (1/2) 0 1 } ∧
    Config.apply_line
        (fun l => if l = "0.5".toList then some (1/2) else none)
        { shape := ShapeType.Hexagon, threshold := 0 }
        ("shape=".toList ++ "heart".toList) =
      { ({ shape := ShapeType.Hexagon, threshold := 0 } : Config) with
        shape := if rust_trim "heart".toList = "heart".toList then
          ShapeType.Heart else ShapeType.Hexagon } :=
  ⟨(config_load_degrades
      (fun l => if l = "0.5".toList then some (1/2) else none)).1,
    (config_load_degrades
      (fun l => if l = "0.5".toList then some (1/2) else none)).2.2.1
      { shape := ShapeType.Hexagon, threshold := 0 } "notanumber".toList
      (by decide) (by decide),
    ((config_load_degrades
      (fun l => if l = "0.5".toList then some (1/2) else none)).2.2.2.1
      { shape := ShapeType.Hexagon, threshold := 0 } "0.5".toList (1/2)
      (by decide) (by rfl)).1,
    (config_load_degrades
      (fun l => if l = "0.5".toList then some (1/2) else none)).2.2.2.2
      { shape := ShapeType.Hexagon, threshold := 0 } "heart".toList
      (by decide)⟩

/-- C9: saving a config whose threshold already lies in `[0,1]` and then
loading from the same storage yields an equal config, given that the
external float formatter/parser pair round-trips the threshold value and
the formatter output is a plain token (no newline, equals sign, carriage
return, or surrounding whitespace), as Rust's `f32` `Display`/`parse` pair
guarantees. -/
theorem config_save_load_roundtrip (parseF : List Char → Option ℚ)
    (display : ℚ → List Char) (c : Config)
    (h0 : 0 ≤ c.threshold) (h1 : c.threshold ≤ 1)
    (hnl : '\n' ∉ display c.threshold)
    (heq2 : '=' ∉ display c.threshold)
    (hcr : '\r' ∉ display c.threshold)
    (htrim : rust_trim (display c.threshold) = display c.threshold)
    (hparse : parseF (display c.threshold) = some c.threshold) :
    Config.load parseF (some (Config.save display c)) = c := by
  have hnl1 : ("\n".toList : List Char) = ['\n'] := rfl
  have hcontent : Config.save display c =
      ("shape=".toList ++ shape_str c.shape) ++ '\n' ::
        (("threshold=".toList ++ display c.threshold) ++ '\n' :: []) := by
    simp [Config.save, hnl1, List.append_assoc]
  have hs1 : '\n' ∉ "shape=".toList ++ shape_str c.shape := by
    cases c.shape <;> decide
  have hs2 : '\n' ∉ "threshold=".toList ++ display c.threshold := by
    intro hmem
    rcases List.mem_append.mp hmem with h | h
    · exact absurd h (by decide)
    · exact hnl h
  have hsplit : splitChar '\n' (Config.save display c) =
      ["shape=".toList ++ shape_str c.shape,
       "threshold=".toList ++ display c.threshold, []] := by
    rw [hcontent, splitChar_append '\n' _ _ hs1,
      splitChar_append '\n' _ _ hs2]
    rfl
  have hcr1 : '\r' ∉ "shape=".toList ++ shape_str c.shape := by
    cases c.shape <;> decide
  have hcr2 : '\r' ∉ "threshold=".toList ++ display c.threshold := by
    intro hmem
    rcases List.mem_append.mp hmem with h | h
    · exact absurd h (by decide)
    · exact hcr h
  have hlines : rust_lines (Config.save display c) =
      ["shape=".toList ++ shape_str c.shape,
       "threshold=".toList ++ display c.threshold] := by
    simp only [rust_lines, hsplit]
    have hif : (if (["shape=".toList ++ shape_str c.shape,
          "threshold=".toList ++ display c.threshold,
          ([] : List Char)]).getLast? = some [] then
        ["shape=".toList ++ shape_str c.shape,
         "threshold=".toList ++ display c.threshold,
         ([] : List Char)].dropLast
      else
        ["shape=".toList ++ shape_str c.shape,
         "threshold=".toList ++ display c.threshold, ([] : List Char)]) =
      ["shape=".toList ++ shape_str c.shape,
       "threshold=".toList ++ display c.threshold] := rfl
    rw [hif]
    simp only [List.map_cons, List.map_nil]
    rw [strip_cr_of_not_mem _ hcr1, strip_cr_of_not_mem _ hcr2]
  have happly1 : Config.apply_line parseF Config.default
      ("shape=".toList ++ shape_str c.shape) =
      { Config.default with shape := c.shape } := by
    cases c.shape <;> rfl
  have hsplit2 : splitChar '=' ("threshold=".toList ++ display c.threshold) =
      ["threshold".toList, display c.threshold] := by
    have hform : "threshold=".toList ++ display c.threshold =
        "threshold".toList ++ '=' :: display c.threshold := rfl
    rw [hform, splitChar_append '=' _ _ (by decide),
      splitChar_of_not_mem '=' _ heq2]
  have hclamp : rust_clamp c.threshold 0 1 = c.threshold := by
    simp only [rust_clamp]
    rw [if_neg (not_lt.mpr h0), if_neg (not_lt.mpr h1)]
  have happly2 : Config.apply_line parseF
      { Config.default with shape := c.shape }
      ("threshold=".toList ++ display c.threshold) = c := by
    simp only [Config.apply_line, hsplit2]
    rw [if_neg (by decide), if_pos (by decide), htrim, hparse]
    show ({ shape := c.shape, threshold := rust_clamp c.threshold 0 1 } :
      Config) = c
    rw [hclamp]
  simp only [Config.load, hlines, List.foldl_cons, List.foldl_nil, happly1,
    happly2]

/-- Witness for C9: the config `{Heart, 0.73}` with a formatter producing
the token `0.73` and a parser mapping that token back to `0.73`
round-trips exactly through save and load. -/
theorem config_save_load_roundtrip_witness :
    Config.load (fun l => if l = "0.73".toList then some (73/100) else none)
      (some (Config.save (fun _ => "0.73".toList)
        { shape := ShapeType.Heart, threshold := 73/100 })) =
      { shape := ShapeType.Heart, threshold := 73/100 } :=
  config_save_load_roundtrip
    (fun l => if l = "0.73".toList then some (73/100) else none)
    (fun _ => "0.73".toList) { shape := ShapeType.Heart, threshold := 73/100 }
    (by norm_num) (by norm_num) (by decide) (by decide) (by decide)
    (by decide) (by rfl)
